import Mathlib

/-!
Shallow embedding of the SparkFun Qwiic Scale NAU7802 Arduino driver
(src/SparkFun_Qwiic_Scale_NAU7802_Arduino_Library.h).

The header file declares the register map, the bit positions inside the
control registers, the enumerated configuration codes and the class
interface; the method bodies live in a .cpp file that is not part of the
sources, so the operations below are modelled from the specification
(each such definition says so in its doc comment).  Register contents are
bytes, embedded as Nat with an explicit mod 256 at every register write.
-/

/-! Register map, from the Scale_Registers enum of the header. -/

/-- Register address 0x00, the power-up control register. -/
def NAU7802_PU_CTRL : Nat := 0x00

/-- Register address 0x01, control register 1. -/
def NAU7802_CTRL1 : Nat := 0x01

/-- Register address 0x02, control register 2. -/
def NAU7802_CTRL2 : Nat := 0x02

/-- Register address 0x12, most significant byte of the 24-bit ADC result.
In the Scale_Registers enum this is the 19th enumerator after
NAU7802_PU_CTRL = 0x00, hence 18. -/
def NAU7802_ADCO_B2 : Nat := 18

/-- Register address 0x13, middle byte of the 24-bit ADC result. -/
def NAU7802_ADCO_B1 : Nat := 19

/-- Register address 0x14, least significant byte of the 24-bit ADC result. -/
def NAU7802_ADCO_B0 : Nat := 20

/-- Register address 0x1F, the device revision register. -/
def NAU7802_DEVICE_REV : Nat := 0x1F

/-! Bit positions, from the PU_CTRL_Bits, CTRL1_Bits and CTRL2_Bits enums. -/

/-- PU_CTRL bit 0: register reset. -/
def NAU7802_PU_CTRL_RR : Nat := 0

/-- PU_CTRL bit 1: power up digital. -/
def NAU7802_PU_CTRL_PUD : Nat := 1

/-- PU_CTRL bit 2: power up analog. -/
def NAU7802_PU_CTRL_PUA : Nat := 2

/-- PU_CTRL bit 3: power up ready. -/
def NAU7802_PU_CTRL_PUR : Nat := 3

/-- PU_CTRL bit 4: cycle start. -/
def NAU7802_PU_CTRL_CS : Nat := 4

/-- PU_CTRL bit 5: cycle ready (conversion complete). -/
def NAU7802_PU_CTRL_CR : Nat := 5

/-- PU_CTRL bit 6: system clock source select. -/
def NAU7802_PU_CTRL_OSCS : Nat := 6

/-- PU_CTRL bit 7: AVDD source select. -/
def NAU7802_PU_CTRL_AVDDS : Nat := 7

/-- CTRL1: low bit position of the 3-bit gain field. -/
def NAU7802_CTRL1_GAIN : Nat := 2

/-- CTRL1: low bit position of the 3-bit LDO voltage field. -/
def NAU7802_CTRL1_VLDO : Nat := 5

/-- CTRL1 bit 6: data-ready pin function select. -/
def NAU7802_CTRL1_DRDY_SEL : Nat := 6

/-- CTRL1 bit 7: conversion-ready pin polarity. -/
def NAU7802_CTRL1_CRP : Nat := 7

/-- CTRL2 bit 0: calibration mode. -/
def NAU7802_CTRL2_CALMOD : Nat := 0

/-- CTRL2 bit 2: calibration start / calibration in progress. -/
def NAU7802_CTRL2_CALS : Nat := 2

/-- CTRL2 bit 3: calibration error status. -/
def NAU7802_CTRL2_CAL_ERROR : Nat := 3

/-- CTRL2: low bit position of the 3-bit conversion rate field. -/
def NAU7802_CTRL2_CRS : Nat := 4

/-- CTRL2 bit 7: channel select. -/
def NAU7802_CTRL2_CHS : Nat := 7

/-! Enumerated configuration codes, from the NAU7802_LDO_Values,
NAU7802_Gain_Values, NAU7802_SPS_Values and NAU7802_Channels enums. -/

def NAU7802_LDO_2V4 : Nat := 0b111
def NAU7802_LDO_2V7 : Nat := 0b110
def NAU7802_LDO_3V0 : Nat := 0b101
def NAU7802_LDO_3V3 : Nat := 0b100
def NAU7802_LDO_3V6 : Nat := 0b011
def NAU7802_LDO_3V9 : Nat := 0b010
def NAU7802_LDO_4V2 : Nat := 0b001
def NAU7802_LDO_4V5 : Nat := 0b000

def NAU7802_GAIN_128 : Nat := 0b111
def NAU7802_GAIN_64 : Nat := 0b110
def NAU7802_GAIN_32 : Nat := 0b101
def NAU7802_GAIN_16 : Nat := 0b100
def NAU7802_GAIN_8 : Nat := 0b011
def NAU7802_GAIN_4 : Nat := 0b010
def NAU7802_GAIN_2 : Nat := 0b001
def NAU7802_GAIN_1 : Nat := 0b000

def NAU7802_SPS_320 : Nat := 0b111
def NAU7802_SPS_80 : Nat := 0b011
def NAU7802_SPS_40 : Nat := 0b010
def NAU7802_SPS_20 : Nat := 0b001
def NAU7802_SPS_10 : Nat := 0b000

def NAU7802_CHANNEL_1 : Nat := 0
def NAU7802_CHANNEL_2 : Nat := 1

/-- The closed set of enumerated gain codes, in the order of the
NAU7802_Gain_Values enum of the header. -/
def gainValues : List Nat :=
  [NAU7802_GAIN_128, NAU7802_GAIN_64, NAU7802_GAIN_32, NAU7802_GAIN_16,
   NAU7802_GAIN_8, NAU7802_GAIN_4, NAU7802_GAIN_2, NAU7802_GAIN_1]

/-- The closed set of enumerated LDO voltage codes, in the order of the
NAU7802_LDO_Values enum of the header. -/
def ldoValues : List Nat :=
  [NAU7802_LDO_2V4, NAU7802_LDO_2V7, NAU7802_LDO_3V0, NAU7802_LDO_3V3,
   NAU7802_LDO_3V6, NAU7802_LDO_3V9, NAU7802_LDO_4V2, NAU7802_LDO_4V5]

/-- The closed set of enumerated samples-per-second codes, in the order of
the NAU7802_SPS_Values enum of the header. -/
def spsValues : List Nat :=
  [NAU7802_SPS_320, NAU7802_SPS_80, NAU7802_SPS_40, NAU7802_SPS_20,
   NAU7802_SPS_10]

/-- The closed set of enumerated channel codes, from the NAU7802_Channels
enum of the header. -/
def channelValues : List Nat := [NAU7802_CHANNEL_1, NAU7802_CHANNEL_2]

/-! The bus / device model. -/

/-- One I2C transaction issued by the driver: the 7-bit device address put
on the bus, the register address accessed, whether it is a write, and the
data byte read or written. -/
structure Txn where
  addr : Nat
  reg : Nat
  isWrite : Bool
  data : Nat
deriving DecidableEq, Repr

/-- State of the I2C bus together with the attached NAU7802 device:
`regs` maps each register address to its current byte, `ack` models
transport-level acknowledgment (false means transactions are not acked,
i.e. the write fails / the device is absent). -/
structure Bus where
  regs : Nat → Nat
  ack : Bool

/-- Result of one driver operation: the returned value, the bus/device
state afterwards, and the list of bus transactions the operation issued. -/
structure OpResult (α : Type) where
  res : α
  bus : Bus
  txns : List Txn

namespace NAU7802

/-- The fixed 7-bit device address, from the header:
`const uint8_t _deviceAddress = 0x2A`.  It is a `const` member initialized
in the class declaration, hence a compile-time constant the driver never
writes; it is embedded as a top-level constant. -/
def _deviceAddress : Nat := 0x2A

/-- Modelled from the spec: `getRegister` is missing from the sources.
Raw single-byte read transaction of one register at the fixed device
address; the device state is unchanged. -/
def getRegister (registerAddress : Nat) (b : Bus) : OpResult Nat :=
  ⟨b.regs registerAddress, b,
   [⟨_deviceAddress, registerAddress, false, b.regs registerAddress⟩]⟩

/-- Modelled from the spec: `setRegister` is missing from the sources.
Raw single-byte write transaction at the fixed device address; returns
true iff the transport acknowledges, in which case the register takes the
written byte (the value truncated to 8 bits). -/
def setRegister (registerAddress value : Nat) (b : Bus) : OpResult Bool :=
  ⟨b.ack,
   if b.ack then
     ⟨fun r => if r = registerAddress then value % 256 else b.regs r, b.ack⟩
   else b,
   [⟨_deviceAddress, registerAddress, true, value % 256⟩]⟩

/-- Modelled from the spec: `setBit` is missing from the sources.
Read-modify-write: read the current register byte, OR in the single bit,
write the whole byte back. -/
def setBit (bitNumber registerAddress : Nat) (b : Bus) : OpResult Bool :=
  let g := getRegister registerAddress b
  let s := setRegister registerAddress (g.res ||| (1 <<< bitNumber)) g.bus
  ⟨s.res, s.bus, g.txns ++ s.txns⟩

/-- Modelled from the spec: `clearBit` is missing from the sources.
Read-modify-write: read the current register byte, AND out the single
bit, write the whole byte back. -/
def clearBit (bitNumber registerAddress : Nat) (b : Bus) : OpResult Bool :=
  let g := getRegister registerAddress b
  let s := setRegister registerAddress (g.res &&& (255 ^^^ (1 <<< bitNumber))) g.bus
  ⟨s.res, s.bus, g.txns ++ s.txns⟩

/-- Modelled from the spec: `getBit` is missing from the sources.
Read the register and test the requested bit position; no write. -/
def getBit (bitNumber registerAddress : Nat) (b : Bus) : OpResult Bool :=
  let g := getRegister registerAddress b
  ⟨Nat.testBit g.res bitNumber, g.bus, g.txns⟩

/-- Modelled from the spec: `available` is missing from the sources.
Reads the cycle-ready bit of the power-up control register on every call;
nothing is cached and nothing is written. -/
def available (b : Bus) : OpResult Bool :=
  getBit NAU7802_PU_CTRL_CR NAU7802_PU_CTRL b

/-- Modelled from the spec: `getReading` is missing from the sources.
Reads the three consecutive ADC output registers most significant byte
first and concatenates them into one unsigned 24-bit value. -/
def getReading (b : Bus) : OpResult Nat :=
  let g2 := getRegister NAU7802_ADCO_B2 b
  let g1 := getRegister NAU7802_ADCO_B1 g2.bus
  let g0 := getRegister NAU7802_ADCO_B0 g1.bus
  ⟨((g2.res <<< 16) ||| (g1.res <<< 8)) ||| g0.res, g0.bus,
   g2.txns ++ g1.txns ++ g0.txns⟩

/-- Modelled from the spec: the multi-bit setters are missing from the
sources.  Common read-modify-write of a bit field: read the register,
clear the field with a bitmask, OR in the new value masked to the field
width, write the whole byte back. -/
def setField (registerAddress fieldPos fieldWidth value : Nat) (b : Bus) :
    OpResult Bool :=
  let g := getRegister registerAddress b
  let cleared := g.res &&& (255 ^^^ ((2 ^ fieldWidth - 1) <<< fieldPos))
  let s := setRegister registerAddress
    (cleared ||| ((value &&& (2 ^ fieldWidth - 1)) <<< fieldPos)) g.bus
  ⟨s.res, s.bus, g.txns ++ s.txns⟩

/-- Modelled from the spec: reading back a bit field of a register, the
observation used to state the setter round-trip properties. -/
def getField (registerAddress fieldPos fieldWidth : Nat) (b : Bus) : Nat :=
  (b.regs registerAddress >>> fieldPos) &&& (2 ^ fieldWidth - 1)

/-- Modelled from the spec: `setGain` is missing from the sources.
Read-modify-write of the 3-bit gain field of CTRL1; the input is masked
into the field without validation. -/
def setGain (gainValue : Nat) (b : Bus) : OpResult Bool :=
  setField NAU7802_CTRL1 NAU7802_CTRL1_GAIN 3 gainValue b

/-- Modelled from the spec: `setLDO` is missing from the sources.
Read-modify-write of the 3-bit LDO voltage field of CTRL1. -/
def setLDO (ldoValue : Nat) (b : Bus) : OpResult Bool :=
  setField NAU7802_CTRL1 NAU7802_CTRL1_VLDO 3 ldoValue b

/-- Modelled from the spec: `setSampleRate` is missing from the sources.
Read-modify-write of the 3-bit conversion rate field of CTRL2. -/
def setSampleRate (rate : Nat) (b : Bus) : OpResult Bool :=
  setField NAU7802_CTRL2 NAU7802_CTRL2_CRS 3 rate b

/-- Modelled from the spec: `setChannel` is missing from the sources.
Read-modify-write of the single channel-select bit of CTRL2. -/
def setChannel (channelNumber : Nat) (b : Bus) : OpResult Bool :=
  setField NAU7802_CTRL2 NAU7802_CTRL2_CHS 1 channelNumber b

/-- Modelled from the spec: `reset` is missing from the sources.
Sets and then clears the register-reset bit of PU_CTRL. -/
def reset (b : Bus) : OpResult Bool :=
  let s1 := setBit NAU7802_PU_CTRL_RR NAU7802_PU_CTRL b
  let s2 := clearBit NAU7802_PU_CTRL_RR NAU7802_PU_CTRL s1.bus
  ⟨s2.res, s2.bus, s1.txns ++ s2.txns⟩

/-- Modelled from the spec: `powerDown` is missing from the sources.
Clears the digital and analog power-up bits of PU_CTRL. -/
def powerDown (b : Bus) : OpResult Bool :=
  let s1 := clearBit NAU7802_PU_CTRL_PUD NAU7802_PU_CTRL b
  let s2 := clearBit NAU7802_PU_CTRL_PUA NAU7802_PU_CTRL s1.bus
  ⟨s2.res, s2.bus, s1.txns ++ s2.txns⟩

/-- Modelled from the spec: `setIntPolarityHigh` is missing from the
sources.  Clears the conversion-ready pin polarity bit of CTRL1. -/
def setIntPolarityHigh (b : Bus) : OpResult Bool :=
  clearBit NAU7802_CTRL1_CRP NAU7802_CTRL1 b

/-- Modelled from the spec: `setIntPolarityLow` is missing from the
sources.  Sets the conversion-ready pin polarity bit of CTRL1. -/
def setIntPolarityLow (b : Bus) : OpResult Bool :=
  setBit NAU7802_CTRL1_CRP NAU7802_CTRL1 b

/-- Modelled from the spec: `getRevisionCode` is missing from the sources.
Reads the device revision register. -/
def getRevisionCode (b : Bus) : OpResult Nat :=
  getRegister NAU7802_DEVICE_REV b

/-- Modelled from the spec: `isConnected` is missing from the sources.
Address probe at the fixed device address; true iff the device
acknowledges. -/
def isConnected (b : Bus) : OpResult Bool :=
  ⟨b.ack, b, [⟨_deviceAddress, 0, false, 0⟩]⟩

/-! The two poll loops.  During calibration and power-up the device
changes its status registers on its own, so these loops are modelled
against a read oracle `hw` giving the byte observed by the k-th read of
the polled register, together with an explicit retry budget (fuel). -/

/-- Modelled from the spec: the poll loop of `calibrate` is missing from
the sources.  Reads CTRL2 until the calibration-in-progress bit clears or
the budget runs out; on completion the result is the negation of the
calibration-error bit, on an exhausted budget it is false. -/
def calPoll (hw : Nat → Nat) : Nat → Nat → Bool × List Txn
  | _, 0 => (false, [])
  | k, fuel + 1 =>
    if Nat.testBit (hw k) NAU7802_CTRL2_CALS then
      let p := calPoll hw (k + 1) fuel
      (p.1, ⟨_deviceAddress, NAU7802_CTRL2, false, hw k⟩ :: p.2)
    else
      (!Nat.testBit (hw k) NAU7802_CTRL2_CAL_ERROR,
       [⟨_deviceAddress, NAU7802_CTRL2, false, hw k⟩])

/-- Modelled from the spec: `calibrate` is missing from the sources.
Sets the calibration-start bit of CTRL2 by read-modify-write (oracle read
0), then polls CTRL2 (oracle reads 1, 2, ...) with a bounded budget. -/
def calibrate (hw : Nat → Nat) (budget : Nat) : Bool × List Txn :=
  let p := calPoll hw 1 budget
  (p.1,
   ⟨_deviceAddress, NAU7802_CTRL2, false, hw 0⟩ ::
   ⟨_deviceAddress, NAU7802_CTRL2, true,
     (hw 0 ||| (1 <<< NAU7802_CTRL2_CALS)) % 256⟩ :: p.2)

/-- Modelled from the spec: the poll loop of `powerUp` is missing from
the sources.  Reads PU_CTRL until the power-up-ready bit is observed set
or the budget runs out. -/
def puPoll (hw : Nat → Nat) : Nat → Nat → Bool × List Txn
  | _, 0 => (false, [])
  | k, fuel + 1 =>
    if Nat.testBit (hw k) NAU7802_PU_CTRL_PUR then
      (true, [⟨_deviceAddress, NAU7802_PU_CTRL, false, hw k⟩])
    else
      let p := puPoll hw (k + 1) fuel
      (p.1, ⟨_deviceAddress, NAU7802_PU_CTRL, false, hw k⟩ :: p.2)

/-- Modelled from the spec: `powerUp` is missing from the sources.
Sets the digital then the analog power-up bit by read-modify-write
(oracle reads 0 and 1), then polls the power-up-ready bit (oracle reads
2, 3, ...) with a bounded budget. -/
def powerUp (hw : Nat → Nat) (budget : Nat) : Bool × List Txn :=
  let p := puPoll hw 2 budget
  (p.1,
   ⟨_deviceAddress, NAU7802_PU_CTRL, false, hw 0⟩ ::
   ⟨_deviceAddress, NAU7802_PU_CTRL, true,
     (hw 0 ||| (1 <<< NAU7802_PU_CTRL_PUD)) % 256⟩ ::
   ⟨_deviceAddress, NAU7802_PU_CTRL, false, hw 1⟩ ::
   ⟨_deviceAddress, NAU7802_PU_CTRL, true,
     (hw 1 ||| (1 <<< NAU7802_PU_CTRL_PUA)) % 256⟩ :: p.2)

/-- Modelled from the spec: `begin` is missing from the sources.  Trace
of the begin sequence: reset, power up (polled against the read oracle),
default LDO, gain and sample rate, then the revision read used to confirm
identity.  Only the transaction trace is needed here. -/
def beginTxns (b : Bus) (hw : Nat → Nat) (budget : Nat) : List Txn :=
  let r := reset b
  let ldo := setLDO NAU7802_LDO_3V3 r.bus
  let gn := setGain NAU7802_GAIN_128 ldo.bus
  let sr := setSampleRate NAU7802_SPS_80 gn.bus
  let rev := getRevisionCode sr.bus
  r.txns ++ (powerUp hw budget).2 ++ ldo.txns ++ gn.txns ++ sr.txns ++ rev.txns

/-- Whether a transaction carries the fixed device address. -/
def addrOk (t : Txn) : Bool := t.addr == _deviceAddress

end NAU7802

/-- A concrete bus state with every register holding 0x5A and an acking
transport, used to instantiate the theorems below. -/
def testBus : Bus := ⟨fun _ => 0x5A, true⟩

/-- A concrete bus state differing from `testBus` exactly in the
cycle-ready bit of PU_CTRL (0x5A xor 0x20 = 0x7A). -/
def testBusToggled : Bus := ⟨fun _ => 0x7A, true⟩

/-- A concrete read oracle for a calibration that is in progress for one
poll and then completes without error. -/
def calHwOk : Nat → Nat := fun t => if t < 2 then 4 else 0

/-- A concrete read oracle for hardware that is stuck: the
calibration-in-progress bit stays set and the power-up-ready bit never
comes up (byte 4 has bit 2 set and bit 3 clear). -/
def hwStuck : Nat → Nat := fun _ => 4

/-- A concrete bus state whose three ADC output registers hold the bytes
0x12, 0x34 and 0x56. -/
def adcBus : Bus :=
  ⟨fun r => if r = 18 then 0x12 else if r = 19 then 0x34 else
    if r = 20 then 0x56 else 0, true⟩

/-! Helper lemmas about byte-level bit manipulation. -/

lemma testBit_255 (i : Nat) : Nat.testBit 255 i = decide (i < 8) := by
  have h : (255 : Nat) = 2 ^ 8 - 1 := by norm_num
  rw [h, Nat.testBit_two_pow_sub_one]

lemma byte_or_bit_testBit (c bitN j : Nat) (hc : c < 256) (hb : bitN < 8) :
    Nat.testBit ((c ||| (1 <<< bitN)) % 256) j =
      if j = bitN then true else Nat.testBit c j := by
  have h1 : (1 : Nat) <<< bitN = 2 ^ bitN := by
    rw [Nat.shiftLeft_eq, Nat.one_mul]
  have h256 : (256 : Nat) = 2 ^ 8 := by norm_num
  rw [h1, h256, Nat.testBit_mod_two_pow, Nat.testBit_or]
  rcases eq_or_ne j bitN with rfl | hj
  · simp [Nat.testBit_two_pow_self, hb]
  · rw [if_neg hj, Nat.testBit_two_pow_of_ne (Ne.symm hj)]
    rcases Nat.lt_or_ge j 8 with hj8 | hj8
    · simp [hj8]
    · have hcj : Nat.testBit c j = false := by
        apply Nat.testBit_lt_two_pow
        calc c < 256 := hc
          _ = 2 ^ 8 := h256
          _ ≤ 2 ^ j := Nat.pow_le_pow_right (by norm_num) hj8
      simp [hcj, show ¬(j < 8) by omega]

lemma field_rmw_eq (c v lo w : Nat) (hlw : lo + w ≤ 8) :
    ((((c &&& (255 ^^^ ((2 ^ w - 1) <<< lo))) |||
        ((v &&& (2 ^ w - 1)) <<< lo)) % 256) >>> lo) &&& (2 ^ w - 1) =
      v &&& (2 ^ w - 1) := by
  have h256 : (256 : Nat) = 2 ^ 8 := by norm_num
  rw [h256]
  apply Nat.eq_of_testBit_eq
  intro i
  simp only [Nat.testBit_and, Nat.testBit_shiftRight, Nat.testBit_mod_two_pow,
    Nat.testBit_or, Nat.testBit_shiftLeft, Nat.testBit_xor,
    Nat.testBit_two_pow_sub_one, testBit_255]
  by_cases hi : i < w
  · have h8 : lo + i < 8 := by omega
    have hge : lo ≤ lo + i := Nat.le_add_right lo i
    simp [hi, h8, hge, Nat.add_sub_cancel_left]
  · simp [hi]

lemma and_mask_eq_mod (v w : Nat) : v &&& (2 ^ w - 1) = v % 2 ^ w := by
  apply Nat.eq_of_testBit_eq
  intro i
  simp only [Nat.testBit_and, Nat.testBit_mod_two_pow,
    Nat.testBit_two_pow_sub_one]
  rw [Bool.and_comm]

lemma and_mask_of_lt (v w : Nat) (hv : v < 2 ^ w) : v &&& (2 ^ w - 1) = v := by
  rw [and_mask_eq_mod, Nat.mod_eq_of_lt hv]

lemma setField_bus_regs (b : Bus) (reg lo w v : Nat) (hok : b.ack = true) :
    (NAU7802.setField reg lo w v b).bus.regs reg =
      ((b.regs reg &&& (255 ^^^ ((2 ^ w - 1) <<< lo))) |||
        ((v &&& (2 ^ w - 1)) <<< lo)) % 256 := by
  simp [NAU7802.setField, NAU7802.getRegister, NAU7802.setRegister, hok]

lemma setField_readback (b : Bus) (reg lo w v : Nat) (hok : b.ack = true)
    (hlw : lo + w ≤ 8) :
    NAU7802.getField reg lo w (NAU7802.setField reg lo w v b).bus =
      v &&& (2 ^ w - 1) := by
  simp only [NAU7802.getField]
  rw [setField_bus_regs b reg lo w v hok]
  exact field_rmw_eq _ _ _ _ hlw

/-- Claim C1: for every register address and bit position 0-7, `setBit`
followed by `getBit` on the same position returns true, every other bit of
that register keeps its pre-call value, other registers are untouched, and
the transaction trace is a read followed by a write of the whole
read-modified byte (read-modify-write, never a blind write). -/
theorem setBit_then_getBit (b : Bus) (bitNumber registerAddress : Nat)
    (hb : bitNumber < 8) (hok : b.ack = true)
    (hreg : b.regs registerAddress < 256) :
    (NAU7802.getBit bitNumber registerAddress
        (NAU7802.setBit bitNumber registerAddress b).bus).res = true ∧
    (∀ j, j ≠ bitNumber →
      Nat.testBit ((NAU7802.setBit bitNumber registerAddress b).bus.regs
          registerAddress) j = Nat.testBit (b.regs registerAddress) j) ∧
    (∀ r, r ≠ registerAddress →
      (NAU7802.setBit bitNumber registerAddress b).bus.regs r = b.regs r) ∧
    (NAU7802.setBit bitNumber registerAddress b).txns =
      [⟨NAU7802._deviceAddress, registerAddress, false, b.regs registerAddress⟩,
       ⟨NAU7802._deviceAddress, registerAddress, true,
         (b.regs registerAddress ||| (1 <<< bitNumber)) % 256⟩] := by
  have hregs : (NAU7802.setBit bitNumber registerAddress b).bus.regs
      registerAddress = (b.regs registerAddress ||| (1 <<< bitNumber)) % 256 := by
    simp [NAU7802.setBit, NAU7802.getRegister, NAU7802.setRegister, hok]
  refine ⟨?_, ?_, ?_, ?_⟩
  · simp [NAU7802.getBit, NAU7802.getRegister, hregs,
      byte_or_bit_testBit _ _ _ hreg hb]
  · intro j hj
    rw [hregs, byte_or_bit_testBit _ _ _ hreg hb, if_neg hj]
  · intro r hr
    simp [NAU7802.setBit, NAU7802.getRegister, NAU7802.setRegister, hok,
      if_neg hr]
  · simp [NAU7802.setBit, NAU7802.getRegister, NAU7802.setRegister]

/-- Witness for C1, at bit 0 of register 2 on a concrete bus. -/
theorem setBit_then_getBit_witness :
    (NAU7802.getBit 0 2 (NAU7802.setBit 0 2 testBus).bus).res = true ∧
    Nat.testBit ((NAU7802.setBit 0 2 testBus).bus.regs 2) 3 =
      Nat.testBit (testBus.regs 2) 3 :=
  ⟨(setBit_then_getBit testBus 0 2 (by decide) rfl (by decide)).1,
   (setBit_then_getBit testBus 0 2 (by decide) rfl (by decide)).2.1 3 (by decide)⟩

lemma concat3_eq (x y z : Nat) (hy : y < 2 ^ 8) (hz : z < 2 ^ 8) :
    ((x <<< 16) ||| (y <<< 8)) ||| z = x * 2 ^ 16 + y * 2 ^ 8 + z := by
  have hyz : 2 ^ 8 * y + z < 2 ^ 16 := by
    have h8 : (2 : Nat) ^ 8 = 256 := by norm_num
    have h16 : (2 : Nat) ^ 16 = 65536 := by norm_num
    rw [h8, h16]
    rw [h8] at hy hz
    omega
  calc ((x <<< 16) ||| (y <<< 8)) ||| z
      = (2 ^ 16 * x) ||| ((2 ^ 8 * y) ||| z) := by
        rw [Nat.shiftLeft_eq, Nat.shiftLeft_eq, Nat.or_assoc,
          Nat.mul_comm x, Nat.mul_comm y]
    _ = (2 ^ 16 * x) ||| (2 ^ 8 * y + z) := by
        rw [← Nat.mul_add_lt_is_or hz]
    _ = 2 ^ 16 * x + (2 ^ 8 * y + z) := by
        rw [← Nat.mul_add_lt_is_or hyz]
    _ = x * 2 ^ 16 + y * 2 ^ 8 + z := by ring

/-- Claim C2: `getReading` reads the three consecutive ADC output
registers most significant byte first (registers 0x12, 0x13, 0x14, read in
that order) and concatenates them into one unsigned 24-bit value. -/
theorem getReading_big_endian (b : Bus)
    (h2 : b.regs NAU7802_ADCO_B2 < 256) (h1 : b.regs NAU7802_ADCO_B1 < 256)
    (h0 : b.regs NAU7802_ADCO_B0 < 256) :
    (NAU7802.getReading b).res =
      b.regs NAU7802_ADCO_B2 * 2 ^ 16 + b.regs NAU7802_ADCO_B1 * 2 ^ 8 +
        b.regs NAU7802_ADCO_B0 ∧
    (NAU7802.getReading b).res < 2 ^ 24 ∧
    NAU7802_ADCO_B1 = NAU7802_ADCO_B2 + 1 ∧
    NAU7802_ADCO_B0 = NAU7802_ADCO_B2 + 2 ∧
    (NAU7802.getReading b).txns =
      [⟨NAU7802._deviceAddress, NAU7802_ADCO_B2, false, b.regs NAU7802_ADCO_B2⟩,
       ⟨NAU7802._deviceAddress, NAU7802_ADCO_B1, false, b.regs NAU7802_ADCO_B1⟩,
       ⟨NAU7802._deviceAddress, NAU7802_ADCO_B0, false, b.regs NAU7802_ADCO_B0⟩] := by
  have hres : (NAU7802.getReading b).res =
      b.regs NAU7802_ADCO_B2 * 2 ^ 16 + b.regs NAU7802_ADCO_B1 * 2 ^ 8 +
        b.regs NAU7802_ADCO_B0 := by
    show ((b.regs NAU7802_ADCO_B2 <<< 16) ||| (b.regs NAU7802_ADCO_B1 <<< 8)) |||
        b.regs NAU7802_ADCO_B0 = _
    exact concat3_eq _ _ _ (by simpa using h1) (by simpa using h0)
  refine ⟨hres, ?_, rfl, rfl, rfl⟩
  rw [hres]
  have h24 : (2 : Nat) ^ 24 = 16777216 := by norm_num
  have h16 : (2 : Nat) ^ 16 = 65536 := by norm_num
  have h8 : (2 : Nat) ^ 8 = 256 := by norm_num
  rw [h24, h16, h8]
  omega

/-- Witness for C2: on a bus whose ADC output registers hold the bytes
0x12, 0x34 and 0x56 the reading is 0x123456. -/
theorem getReading_big_endian_witness :
    (NAU7802.getReading adcBus).res = 0x123456 := by
  have h := (getReading_big_endian adcBus (by decide) (by decide) (by decide)).1
  rw [h]
  decide

/-- Claim C3: for every enumerated gain, LDO, sample-rate and channel
value, the corresponding setter followed by reading back the
corresponding bit field of the control register yields exactly that
value. -/
theorem setters_readback (b : Bus) (v : Nat) (hok : b.ack = true) :
    (v ∈ gainValues →
      NAU7802.getField NAU7802_CTRL1 NAU7802_CTRL1_GAIN 3
        (NAU7802.setGain v b).bus = v) ∧
    (v ∈ ldoValues →
      NAU7802.getField NAU7802_CTRL1 NAU7802_CTRL1_VLDO 3
        (NAU7802.setLDO v b).bus = v) ∧
    (v ∈ spsValues →
      NAU7802.getField NAU7802_CTRL2 NAU7802_CTRL2_CRS 3
        (NAU7802.setSampleRate v b).bus = v) ∧
    (v ∈ channelValues →
      NAU7802.getField NAU7802_CTRL2 NAU7802_CTRL2_CHS 1
        (NAU7802.setChannel v b).bus = v) := by
  refine ⟨fun hv => ?_, fun hv => ?_, fun hv => ?_, fun hv => ?_⟩
  · have hv8 : v < 2 ^ 3 := by
      simp [gainValues, NAU7802_GAIN_128, NAU7802_GAIN_64, NAU7802_GAIN_32,
        NAU7802_GAIN_16, NAU7802_GAIN_8, NAU7802_GAIN_4, NAU7802_GAIN_2,
        NAU7802_GAIN_1] at hv
      omega
    rw [NAU7802.setGain, setField_readback b _ _ _ _ hok (by decide),
      and_mask_of_lt _ _ hv8]
  · have hv8 : v < 2 ^ 3 := by
      simp [ldoValues, NAU7802_LDO_2V4, NAU7802_LDO_2V7, NAU7802_LDO_3V0,
        NAU7802_LDO_3V3, NAU7802_LDO_3V6, NAU7802_LDO_3V9, NAU7802_LDO_4V2,
        NAU7802_LDO_4V5] at hv
      omega
    rw [NAU7802.setLDO, setField_readback b _ _ _ _ hok (by decide),
      and_mask_of_lt _ _ hv8]
  · have hv8 : v < 2 ^ 3 := by
      simp [spsValues, NAU7802_SPS_320, NAU7802_SPS_80, NAU7802_SPS_40,
        NAU7802_SPS_20, NAU7802_SPS_10] at hv
      omega
    rw [NAU7802.setSampleRate, setField_readback b _ _ _ _ hok (by decide),
      and_mask_of_lt _ _ hv8]
  · have hv1 : v < 2 ^ 1 := by
      simp [channelValues, NAU7802_CHANNEL_1, NAU7802_CHANNEL_2] at hv
      omega
    rw [NAU7802.setChannel, setField_readback b _ _ _ _ hok (by decide),
      and_mask_of_lt _ _ hv1]

/-- Witness for C3, with the enumerated value 1 (a legal gain and channel
code) on a concrete bus. -/
theorem setters_readback_witness :
    NAU7802.getField NAU7802_CTRL1 NAU7802_CTRL1_GAIN 3
      (NAU7802.setGain 1 testBus).bus = 1 ∧
    NAU7802.getField NAU7802_CTRL2 NAU7802_CTRL2_CHS 1
      (NAU7802.setChannel 1 testBus).bus = 1 :=
  ⟨(setters_readback testBus 1 rfl).1 (by decide),
   (setters_readback testBus 1 rfl).2.2.2 (by decide)⟩

/-- Claim C6: `setGain` does not validate its input: the returned Bool
equals the transport acknowledgment (false exactly when the underlying
register write fails), the value is masked into the 3-bit gain field
(written modulo 8), and any input above 7 therefore silently yields a
different gain code. -/
theorem setGain_masks_without_validation (b : Bus) (v : Nat) :
    (NAU7802.setGain v b).res = b.ack ∧
    (b.ack = true →
      NAU7802.getField NAU7802_CTRL1 NAU7802_CTRL1_GAIN 3
        (NAU7802.setGain v b).bus = v % 8) ∧
    (7 < v → v % 8 ≠ v) := by
  refine ⟨rfl, fun hok => ?_, fun hv => by omega⟩
  rw [NAU7802.setGain, setField_readback b _ _ _ _ hok (by decide),
    and_mask_eq_mod]
  norm_num

/-- Witness for C6 at the out-of-range input 9. -/
theorem setGain_masks_without_validation_witness :
    NAU7802.getField NAU7802_CTRL1 NAU7802_CTRL1_GAIN 3
      (NAU7802.setGain 9 testBus).bus = 9 % 8 ∧ 9 % 8 ≠ 9 :=
  ⟨(setGain_masks_without_validation testBus 9).2.1 rfl,
   (setGain_masks_without_validation testBus 9).2.2 (by decide)⟩

/-- Claim C8: `available` returns exactly the current value of the cycle
ready bit of the power-up control register on every call, caches nothing
and changes no device state (in particular it does not clear the bit);
toggling the bit on the device between two calls flips the return value
immediately. -/
theorem available_no_caching (b b2 : Bus)
    (ht : b2.regs NAU7802_PU_CTRL =
      b.regs NAU7802_PU_CTRL ^^^ (1 <<< NAU7802_PU_CTRL_CR)) :
    (NAU7802.available b).res =
      Nat.testBit (b.regs NAU7802_PU_CTRL) NAU7802_PU_CTRL_CR ∧
    (NAU7802.available b).bus = b ∧
    (NAU7802.available b2).res = !(NAU7802.available b).res := by
  refine ⟨rfl, rfl, ?_⟩
  show Nat.testBit (b2.regs NAU7802_PU_CTRL) NAU7802_PU_CTRL_CR = _
  have h32 : (1 : Nat) <<< NAU7802_PU_CTRL_CR = 2 ^ NAU7802_PU_CTRL_CR := by
    decide
  rw [ht, h32, Nat.testBit_xor, Nat.testBit_two_pow_self]
  simp [NAU7802.available, NAU7802.getBit, NAU7802.getRegister]

/-- Witness for C8 on two concrete buses differing exactly in the cycle
ready bit. -/
theorem available_no_caching_witness :
    (NAU7802.available testBusToggled).res = !(NAU7802.available testBus).res :=
  (available_no_caching testBus testBusToggled (by decide)).2.2

/-! Lemmas about single-bit read-modify-write on a byte. -/

lemma byte_or_bit_self (c bitN : Nat) (hb : bitN < 8) :
    Nat.testBit ((c ||| (1 <<< bitN)) % 256) bitN = true := by
  have h1 : (1 : Nat) <<< bitN = 2 ^ bitN := by
    rw [Nat.shiftLeft_eq, Nat.one_mul]
  have h256 : (256 : Nat) = 2 ^ 8 := by norm_num
  rw [h1, h256, Nat.testBit_mod_two_pow, Nat.testBit_or,
    Nat.testBit_two_pow_self]
  simp [hb]

lemma byte_or_bit_other (c bitN j : Nat) (hb8 : j < 8) (hj : j ≠ bitN) :
    Nat.testBit ((c ||| (1 <<< bitN)) % 256) j = Nat.testBit c j := by
  have h1 : (1 : Nat) <<< bitN = 2 ^ bitN := by
    rw [Nat.shiftLeft_eq, Nat.one_mul]
  have h256 : (256 : Nat) = 2 ^ 8 := by norm_num
  rw [h1, h256, Nat.testBit_mod_two_pow, Nat.testBit_or,
    Nat.testBit_two_pow_of_ne (Ne.symm hj)]
  simp [hb8]

/-! Lemmas about the two poll loops. -/

lemma calPoll_true_iff (hw : Nat → Nat) :
    ∀ fuel k, (NAU7802.calPoll hw k fuel).1 = true ↔
      ∃ i, i < fuel ∧
        (∀ j, j < i → Nat.testBit (hw (k + j)) NAU7802_CTRL2_CALS = true) ∧
        Nat.testBit (hw (k + i)) NAU7802_CTRL2_CALS = false ∧
        Nat.testBit (hw (k + i)) NAU7802_CTRL2_CAL_ERROR = false := by
  intro fuel
  induction fuel with
  | zero =>
    intro k
    simp [NAU7802.calPoll]
  | succ fuel ih =>
    intro k
    by_cases hbit : Nat.testBit (hw k) NAU7802_CTRL2_CALS = true
    · rw [show (NAU7802.calPoll hw k (fuel + 1)).1 =
          (NAU7802.calPoll hw (k + 1) fuel).1 by
        simp [NAU7802.calPoll, hbit]]
      rw [ih (k + 1)]
      constructor
      · rintro ⟨i, hi, hall, hdone, herr⟩
        refine ⟨i + 1, by omega, ?_, ?_, ?_⟩
        · intro j hj
          cases j with
          | zero => simpa using hbit
          | succ j' =>
            have h := hall j' (by omega)
            have harg : k + (j' + 1) = k + 1 + j' := by omega
            rw [harg]
            exact h
        · have harg : k + (i + 1) = k + 1 + i := by omega
          rw [harg]; exact hdone
        · have harg : k + (i + 1) = k + 1 + i := by omega
          rw [harg]; exact herr
      · rintro ⟨i, hi, hall, hdone, herr⟩
        cases i with
        | zero =>
          rw [Nat.add_zero, hbit] at hdone
          exact absurd hdone (by decide)
        | succ i' =>
          refine ⟨i', by omega, ?_, ?_, ?_⟩
          · intro j hj
            have h := hall (j + 1) (by omega)
            have harg : k + (j + 1) = k + 1 + j := by omega
            rw [harg] at h
            exact h
          · have harg : k + (i' + 1) = k + 1 + i' := by omega
            rw [harg] at hdone; exact hdone
          · have harg : k + (i' + 1) = k + 1 + i' := by omega
            rw [harg] at herr; exact herr
    · have hbit' : Nat.testBit (hw k) NAU7802_CTRL2_CALS = false :=
        Bool.eq_false_iff.mpr hbit
      rw [show (NAU7802.calPoll hw k (fuel + 1)).1 =
          !Nat.testBit (hw k) NAU7802_CTRL2_CAL_ERROR by
        simp [NAU7802.calPoll, hbit']]
      constructor
      · intro h
        refine ⟨0, by omega, fun j hj => absurd hj (by omega), ?_, ?_⟩
        · simpa using hbit'
        · simpa using h
      · rintro ⟨i, hi, hall, hdone, herr⟩
        have hi0 : i = 0 := by
          by_contra h0
          have h := hall 0 (by omega)
          rw [Nat.add_zero] at h
          rw [h] at hbit'
          exact absurd hbit' (by decide)
        subst hi0
        simpa using herr

lemma calPoll_false_of_stuck (hw : Nat → Nat)
    (h : ∀ i, Nat.testBit (hw i) NAU7802_CTRL2_CALS = true) :
    ∀ fuel k, (NAU7802.calPoll hw k fuel).1 = false := by
  intro fuel
  induction fuel with
  | zero => intro k; simp [NAU7802.calPoll]
  | succ fuel ih => intro k; simp [NAU7802.calPoll, h k, ih (k + 1)]

lemma puPoll_false_of_never (hw : Nat → Nat)
    (h : ∀ i, Nat.testBit (hw i) NAU7802_PU_CTRL_PUR = false) :
    ∀ fuel k, (NAU7802.puPoll hw k fuel).1 = false := by
  intro fuel
  induction fuel with
  | zero => intro k; simp [NAU7802.puPoll]
  | succ fuel ih => intro k; simp [NAU7802.puPoll, h k, ih (k + 1)]

lemma calPoll_length_le (hw : Nat → Nat) :
    ∀ fuel k, (NAU7802.calPoll hw k fuel).2.length ≤ fuel := by
  intro fuel
  induction fuel with
  | zero => intro k; simp [NAU7802.calPoll]
  | succ fuel ih =>
    intro k
    by_cases hbit : Nat.testBit (hw k) NAU7802_CTRL2_CALS = true
    · have h := ih (k + 1)
      simp only [NAU7802.calPoll, hbit, if_pos, List.length_cons]
      omega
    · have hbit' : Nat.testBit (hw k) NAU7802_CTRL2_CALS = false :=
        Bool.eq_false_iff.mpr hbit
      simp [NAU7802.calPoll, hbit']

lemma puPoll_length_le (hw : Nat → Nat) :
    ∀ fuel k, (NAU7802.puPoll hw k fuel).2.length ≤ fuel := by
  intro fuel
  induction fuel with
  | zero => intro k; simp [NAU7802.puPoll]
  | succ fuel ih =>
    intro k
    by_cases hbit : Nat.testBit (hw k) NAU7802_PU_CTRL_PUR = true
    · simp [NAU7802.puPoll, hbit]
    · have hbit' : Nat.testBit (hw k) NAU7802_PU_CTRL_PUR = false :=
        Bool.eq_false_iff.mpr hbit
      have h := ih (k + 1)
      simp only [NAU7802.puPoll, hbit', List.length_cons]
      simp only [Bool.false_eq_true, if_false, List.length_cons]
      omega

/-- Claim C4: `calibrate` sets the calibration-start bit by
read-modify-write (its second transaction is a write to CTRL2 whose byte
has the CALS bit set and every other bit as read), polls until the
calibration-in-progress bit clears within the bounded budget, returns
true exactly when completion is observed with the calibration-error bit
clear (so false when the error bit is observed), and returns false when
calibration never completes. -/
theorem calibrate_spec (hw : Nat → Nat) (budget : Nat) :
    (∀ t, (NAU7802.calibrate hw budget).2[1]? = some t →
      t.isWrite = true ∧ t.reg = NAU7802_CTRL2 ∧
      Nat.testBit t.data NAU7802_CTRL2_CALS = true ∧
      (∀ j, j < 8 → j ≠ NAU7802_CTRL2_CALS →
        Nat.testBit t.data j = Nat.testBit (hw 0) j)) ∧
    ((NAU7802.calibrate hw budget).1 = true ↔
      ∃ i, i < budget ∧
        (∀ j, j < i → Nat.testBit (hw (1 + j)) NAU7802_CTRL2_CALS = true) ∧
        Nat.testBit (hw (1 + i)) NAU7802_CTRL2_CALS = false ∧
        Nat.testBit (hw (1 + i)) NAU7802_CTRL2_CAL_ERROR = false) ∧
    ((∀ i, Nat.testBit (hw i) NAU7802_CTRL2_CALS = true) →
      (NAU7802.calibrate hw budget).1 = false) := by
  refine ⟨?_, ?_, fun h => calPoll_false_of_stuck hw h budget 1⟩
  · intro t ht
    have ht' : t = ⟨NAU7802._deviceAddress, NAU7802_CTRL2, true,
        (hw 0 ||| (1 <<< NAU7802_CTRL2_CALS)) % 256⟩ := by
      simpa [NAU7802.calibrate] using ht.symm
    subst ht'
    refine ⟨rfl, rfl, byte_or_bit_self _ _ (by decide), ?_⟩
    intro j hj8 hj
    exact byte_or_bit_other _ _ _ hj8 hj
  · exact calPoll_true_iff hw budget 1

/-- Witness for C4: a calibration that is busy for one poll and then
completes without error yields true. -/
theorem calibrate_spec_witness : (NAU7802.calibrate calHwOk 3).1 = true :=
  (calibrate_spec calHwOk 3).2.1.mpr ⟨1, by decide⟩

/-- Claim C5: the poll loops of `calibrate` and `powerUp` are bounded:
on hardware that never reports ready each returns false instead of
looping, and the number of bus transactions either operation issues is
bounded by its retry budget plus the fixed setup transactions. -/
theorem poll_loops_bounded (hw : Nat → Nat) (budget : Nat) :
    ((∀ i, Nat.testBit (hw i) NAU7802_CTRL2_CALS = true) →
      (NAU7802.calibrate hw budget).1 = false) ∧
    ((∀ i, Nat.testBit (hw i) NAU7802_PU_CTRL_PUR = false) →
      (NAU7802.powerUp hw budget).1 = false) ∧
    (NAU7802.calibrate hw budget).2.length ≤ budget + 2 ∧
    (NAU7802.powerUp hw budget).2.length ≤ budget + 4 := by
  refine ⟨fun h => calPoll_false_of_stuck hw h budget 1,
    fun h => puPoll_false_of_never hw h budget 2, ?_, ?_⟩
  · have h := calPoll_length_le hw budget 1
    simp only [NAU7802.calibrate, List.length_cons]
    omega
  · have h := puPoll_length_le hw budget 2
    simp only [NAU7802.powerUp, List.length_cons]
    omega

/-- Witness for C5 on hardware that is permanently stuck. -/
theorem poll_loops_bounded_witness :
    (NAU7802.calibrate hwStuck 3).1 = false ∧
    (NAU7802.powerUp hwStuck 3).1 = false :=
  ⟨(poll_loops_bounded hwStuck 3).1 (fun i => by simp only [hwStuck]; decide),
   (poll_loops_bounded hwStuck 3).2.1 (fun i => by simp only [hwStuck]; decide)⟩

/-- Claim C7: the enumerated sample-rate codes are exactly the
non-contiguous bit patterns 0b000, 0b001, 0b010, 0b011 and 0b111 -- not 0
through 4 -- so a sample-rate value is legal exactly when it matches one
of the five enum constants, not when it lies in a contiguous range. -/
theorem sps_codes_non_contiguous :
    (∀ v, v ∈ spsValues ↔
      (v = 0b000 ∨ v = 0b001 ∨ v = 0b010 ∨ v = 0b011 ∨ v = 0b111)) ∧
    4 ∉ spsValues ∧ ¬(∀ v, v ∈ spsValues ↔ v ≤ 4) := by
  refine ⟨?_, by decide, ?_⟩
  · intro v
    simp [spsValues, NAU7802_SPS_320, NAU7802_SPS_80, NAU7802_SPS_40,
      NAU7802_SPS_20, NAU7802_SPS_10]
    tauto
  · intro h
    have h4 := (h 4).mpr (by omega)
    exact absurd h4 (by decide)

/-- Witness for C7: instantiating the characterization at the value 4
(which lies in the range 0-4 but is not a legal code). -/
theorem sps_codes_non_contiguous_witness :
    4 ∈ spsValues ↔ ((4 : Nat) = 0b000 ∨ (4 : Nat) = 0b001 ∨
      (4 : Nat) = 0b010 ∨ (4 : Nat) = 0b011 ∨ (4 : Nat) = 0b111) :=
  sps_codes_non_contiguous.1 4

/-- Claim C10: each enumerated gain constant is the exponent of its gain
multiplier: two raised to the code gives the multiplier, with
NAU7802_GAIN_1 = 0 up through NAU7802_GAIN_128 = 7, so the 3-bit gain
code is exactly the base-2 logarithm of the gain multiplier. -/
theorem gain_codes_are_exponents :
    2 ^ NAU7802_GAIN_1 = 1 ∧ 2 ^ NAU7802_GAIN_2 = 2 ∧
    2 ^ NAU7802_GAIN_4 = 4 ∧ 2 ^ NAU7802_GAIN_8 = 8 ∧
    2 ^ NAU7802_GAIN_16 = 16 ∧ 2 ^ NAU7802_GAIN_32 = 32 ∧
    2 ^ NAU7802_GAIN_64 = 64 ∧ 2 ^ NAU7802_GAIN_128 = 128 ∧
    gainValues = [7, 6, 5, 4, 3, 2, 1, 0] := by
  decide

/-- Witness for C10: the largest code, 2 to the NAU7802_GAIN_128 code is
128. -/
theorem gain_codes_are_exponents_witness : 2 ^ NAU7802_GAIN_128 = 128 :=
  gain_codes_are_exponents.2.2.2.2.2.2.2.1

/-! Lemmas collecting the device address carried by poll transactions. -/

lemma calPoll_addr (hw : Nat → Nat) :
    ∀ fuel k, ((NAU7802.calPoll hw k fuel).2.all NAU7802.addrOk) = true := by
  intro fuel
  induction fuel with
  | zero => intro k; simp [NAU7802.calPoll]
  | succ fuel ih =>
    intro k
    by_cases hbit : Nat.testBit (hw k) NAU7802_CTRL2_CALS = true
    · simp [NAU7802.calPoll, hbit, NAU7802.addrOk, ih (k + 1)]
    · have hbit' : Nat.testBit (hw k) NAU7802_CTRL2_CALS = false :=
        Bool.eq_false_iff.mpr hbit
      simp [NAU7802.calPoll, hbit', NAU7802.addrOk]

lemma puPoll_addr (hw : Nat → Nat) :
    ∀ fuel k, ((NAU7802.puPoll hw k fuel).2.all NAU7802.addrOk) = true := by
  intro fuel
  induction fuel with
  | zero => intro k; simp [NAU7802.puPoll]
  | succ fuel ih =>
    intro k
    by_cases hbit : Nat.testBit (hw k) NAU7802_PU_CTRL_PUR = true
    · simp [NAU7802.puPoll, hbit, NAU7802.addrOk]
    · have hbit' : Nat.testBit (hw k) NAU7802_PU_CTRL_PUR = false :=
        Bool.eq_false_iff.mpr hbit
      simp [NAU7802.puPoll, hbit', NAU7802.addrOk, ih (k + 1)]

lemma calibrate_addr (hw : Nat → Nat) (budget : Nat) :
    ((NAU7802.calibrate hw budget).2.all NAU7802.addrOk) = true := by
  simp [NAU7802.calibrate, NAU7802.addrOk, calPoll_addr hw budget 1]

lemma powerUp_addr (hw : Nat → Nat) (budget : Nat) :
    ((NAU7802.powerUp hw budget).2.all NAU7802.addrOk) = true := by
  simp [NAU7802.powerUp, NAU7802.addrOk, puPoll_addr hw budget 2]

/-- Claim C9: the device address is the single constant 7-bit value 0x2A
fixed at construction (a constant of the embedding, so no operation can
change it), and every bus transaction of every operation -- the register
primitives, the bit primitives, every named setter and getter, reset,
power up and down, calibrate and the begin sequence -- carries exactly
that address. -/
theorem all_txns_use_device_address (b : Bus)
    (bitNumber registerAddress value budget : Nat) (hw : Nat → Nat) :
    NAU7802._deviceAddress = 0x2A ∧ NAU7802._deviceAddress < 2 ^ 7 ∧
    ((NAU7802.getRegister registerAddress b).txns.all NAU7802.addrOk) = true ∧
    ((NAU7802.setRegister registerAddress value b).txns.all NAU7802.addrOk) = true ∧
    ((NAU7802.setBit bitNumber registerAddress b).txns.all NAU7802.addrOk) = true ∧
    ((NAU7802.clearBit bitNumber registerAddress b).txns.all NAU7802.addrOk) = true ∧
    ((NAU7802.getBit bitNumber registerAddress b).txns.all NAU7802.addrOk) = true ∧
    ((NAU7802.available b).txns.all NAU7802.addrOk) = true ∧
    ((NAU7802.getReading b).txns.all NAU7802.addrOk) = true ∧
    ((NAU7802.setGain value b).txns.all NAU7802.addrOk) = true ∧
    ((NAU7802.setLDO value b).txns.all NAU7802.addrOk) = true ∧
    ((NAU7802.setSampleRate value b).txns.all NAU7802.addrOk) = true ∧
    ((NAU7802.setChannel value b).txns.all NAU7802.addrOk) = true ∧
    ((NAU7802.reset b).txns.all NAU7802.addrOk) = true ∧
    ((NAU7802.powerDown b).txns.all NAU7802.addrOk) = true ∧
    ((NAU7802.setIntPolarityHigh b).txns.all NAU7802.addrOk) = true ∧
    ((NAU7802.setIntPolarityLow b).txns.all NAU7802.addrOk) = true ∧
    ((NAU7802.getRevisionCode b).txns.all NAU7802.addrOk) = true ∧
    ((NAU7802.isConnected b).txns.all NAU7802.addrOk) = true ∧
    ((NAU7802.calibrate hw budget).2.all NAU7802.addrOk) = true ∧
    ((NAU7802.powerUp hw budget).2.all NAU7802.addrOk) = true ∧
    ((NAU7802.beginTxns b hw budget).all NAU7802.addrOk) = true := by
  refine ⟨rfl, by decide, rfl, rfl, rfl, rfl, rfl, rfl, rfl, rfl, rfl, rfl,
    rfl, rfl, rfl, rfl, rfl, rfl, rfl, calibrate_addr hw budget,
    powerUp_addr hw budget, ?_⟩
  simp [NAU7802.beginTxns, List.all_append, powerUp_addr hw budget,
    NAU7802.reset, NAU7802.setBit, NAU7802.clearBit, NAU7802.setLDO,
    NAU7802.setGain, NAU7802.setSampleRate, NAU7802.setField,
    NAU7802.getRevisionCode, NAU7802.getRegister, NAU7802.setRegister,
    NAU7802.addrOk]

/-- Witness for C9: the transactions of a concrete setter call on a
concrete bus all carry the fixed address. -/
theorem all_txns_use_device_address_witness :
    ((NAU7802.setGain 1 testBus).txns.all NAU7802.addrOk) = true :=
  (all_txns_use_device_address testBus 0 2 1 3 hwStuck).2.2.2.2.2.2.2.2.1
